import Mathlib

/-!
Verification of the precision-scaling search of
`src/scripts/precision_scaling.py` (`calculate_cv`, `optimize_scaling`).

The Python code is embedded shallowly over the real numbers:
* `npMean`, `npStd` model `np.mean` and the population `np.std`;
* `calculate_cv` models `calculate_cv` (lines 15-17);
* `npRound` models `np.round` on one element (round half to even);
* `npArange` models `np.arange(start, stop, step)` whose length is
  `ceil((stop - start) / step)` clamped at zero;
* `SearchState`, `processCandidate`, `scanLoop`, `optimize_scaling`
  model the search loop of `optimize_scaling` (lines 48-89): the
  state carries `best_error` (`none` plays the role of the initial
  `float('inf')`), `best_scale`, `best_data`, the `scales_tried`
  counter and whether the `break` at line 80 has fired.

The Python function returns the pair `(best_scale, best_data)`; the
embedding exposes the whole final loop state, whose extra fields
(`scalesTried`, `broke`, `bestError`) are observable in the source
through the printed diagnostics and the early-exit behaviour.
`optimize_scaling` is the state after the loop (just before line 82);
`optimize_scaling_run` adds the `verbose` parameter (default True in the
source) and the diagnostics epilogue of lines 82-87, whose
`np.mean(best_data)` at line 86 raises TypeError when `best_data` is
still `None`, so that an uncaught exception and a normal return (line 89)
are distinguished as `Except.error` and `Except.ok`.
-/

/-- np.mean: sum divided by length. -/
noncomputable def npMean (data : List ℝ) : ℝ := data.sum / data.length

/-- np.std (population): square root of the mean squared deviation. -/
noncomputable def npStd (data : List ℝ) : ℝ :=
  Real.sqrt ((data.map (fun x => (x - npMean data) ^ 2)).sum / data.length)

/-- calculate_cv (lines 15-17): np.std(data) / np.mean(data).  The code
performs the division unconditionally; in this exact embedding a division
by a zero mean yields 0 (the IEEE code yields inf or NaN) — either way a
value, never a signalled error. -/
noncomputable def calculate_cv (data : List ℝ) : ℝ := npStd data / npMean data

/-- np.round on one element: round to the nearest integer, ties to even. -/
noncomputable def npRound (x : ℝ) : ℤ :=
  if x - ⌊x⌋ < 1 / 2 then ⌊x⌋
  else if 1 / 2 < x - ⌊x⌋ then ⌊x⌋ + 1
  else if ⌊x⌋ % 2 = 0 then ⌊x⌋ else ⌊x⌋ + 1

/-- Line 61: `np.round(scaled_data).astype(int)`, elementwise rounding. -/
noncomputable def roundSeries (data : List ℝ) : List ℤ := data.map npRound

/-- np.arange(start, stop, step): `ceil((stop - start) / step)` points
`start + i * step` (length clamped at zero). -/
noncomputable def npArange (start stop step : ℝ) : List ℝ :=
  (List.range (⌈(stop - start) / step⌉.toNat)).map (fun i => start + i * step)

/-- Line 40: `base_scale = target_mean / original_mean`. -/
noncomputable def base_scale (original_data : List ℝ) (target_mean : ℝ) : ℝ :=
  target_mean / npMean original_data

/-- Line 59: `scale_factor = base_scale * scale_multiplier`. -/
noncomputable def scale_factor (bs scale_multiplier : ℝ) : ℝ :=
  bs * scale_multiplier

/-- Lines 59-61 for one candidate multiplier: the rounded integer series
`np.round(original_data * scale_factor).astype(int)`. -/
noncomputable def candRounded (original_data : List ℝ) (bs m : ℝ) : List ℤ :=
  roundSeries (original_data.map (fun x => x * scale_factor bs m))

/-- Lines 63-64 for one candidate multiplier: `cv_error =
abs(rounded_cv - original_cv) / original_cv`. -/
noncomputable def candErr (original_data : List ℝ) (ocv bs m : ℝ) : ℝ :=
  |calculate_cv ((candRounded original_data bs m).map (fun z => (z : ℝ))) - ocv| / ocv

/-- The cv_error of the candidate at position `i` of the multiplier list. -/
noncomputable def errAt (original_data : List ℝ) (ocv bs : ℝ) (ms : List ℝ) (i : ℕ) : ℝ :=
  candErr original_data ocv bs (ms.getD i 0)

/-- Mutable loop state of `optimize_scaling` (lines 48-52, 56, 67-80):
`bestError = none` models the initial `float('inf')`. -/
structure SearchState where
  bestError : Option ℝ
  bestScale : ℝ
  bestData : Option (List ℤ)
  scalesTried : ℕ
  broke : Bool

/-- Line 67: `cv_error < best_error`, where `none` is the initial infinity. -/
def improves (e : ℝ) (best : Option ℝ) : Prop :=
  match best with
  | none => True
  | some b => e < b

noncomputable instance improvesDecidable : (e : ℝ) → (best : Option ℝ) → Decidable (improves e best)
  | _, none => isTrue True.intro
  | e, some b => Real.decidableLT e b

/-- Loop body of `optimize_scaling` (lines 56-80) for one multiplier:
increment `scales_tried`, compute the candidate, update the best on strict
improvement, and set `broke` when the tolerance check (line 76) fires. -/
noncomputable def processCandidate (original_data : List ℝ) (ocv tgt bs : ℝ)
    (st : SearchState) (m : ℝ) : SearchState :=
  let st1 : SearchState := { st with scalesTried := st.scalesTried + 1 }
  let cvErr := candErr original_data ocv bs m
  if improves cvErr st1.bestError then
    let st2 : SearchState :=
      { st1 with bestError := some cvErr, bestScale := scale_factor bs m,
                 bestData := some (candRounded original_data bs m) }
    if cvErr ≤ tgt then { st2 with broke := true } else st2
  else st1

/-- The `for scale_multiplier in np.arange(...)` loop (line 55): process
multipliers left to right, and stop as soon as the `break` has fired. -/
noncomputable def scanLoop (original_data : List ℝ) (ocv tgt bs : ℝ) :
    List ℝ → SearchState → SearchState
  | [], st => st
  | m :: ms, st =>
    if st.broke then st
    else scanLoop original_data ocv tgt bs ms (processCandidate original_data ocv tgt bs st m)

/-- State before the loop (lines 48-52): `best_error = inf`,
`best_scale = base_scale`, `best_data = None`, `scales_tried = 0`. -/
def initState (bs : ℝ) : SearchState :=
  { bestError := none, bestScale := bs, bestData := none, scalesTried := 0, broke := false }

/-- optimize_scaling, search part (lines 19-80): compute the original CV
and the base scale, then run the grid-search loop over
`np.arange(min_scale, max_scale, step)`.  This is the program state
reached at line 82, just before the verbose diagnostics epilogue; the
full call with the `verbose` parameter is `optimize_scaling_run` below.
The Python return value at line 89 is the pair `(bestScale, bestData)` of
this state. -/
noncomputable def optimize_scaling (original_data : List ℝ)
    (target_mean target_cv_error min_scale max_scale step : ℝ) : SearchState :=
  scanLoop original_data (calculate_cv original_data) target_cv_error
    (base_scale original_data target_mean)
    (npArange min_scale max_scale step)
    (initState (base_scale original_data target_mean))

/-- Python exception the embedded code can raise: the TypeError of
`np.mean(None)` at line 86 when the loop never set `best_data`.  The code
defines no other exception — in particular no `InvalidRangeError`,
`ZeroMeanError` or `EmptyInputError`. -/
inductive PyError where
  | typeError : PyError

/-- Diagnostics epilogue of optimize_scaling (lines 82-87): when `verbose`
is set the block runs and line 86 computes `np.mean(best_data)`, which
raises TypeError if `best_data` is still `None` (numpy cannot average the
`None` object); otherwise execution reaches the return at line 89 with
the state unchanged. -/
def verboseEpilogue (verbose : Bool) (st : SearchState) : Except PyError SearchState :=
  if verbose then
    match st.bestData with
    | none => Except.error PyError.typeError
    | some _ => Except.ok st
  else Except.ok st

/-- The full optimize_scaling call (lines 19-89) with its `verbose`
parameter (the source default is `verbose=True`): run the search loop,
then the verbose diagnostics epilogue, then return.  `Except.error` is an
uncaught Python exception escaping the call; `Except.ok` is the normal
return at line 89, whose Python value is the pair
`(bestScale, bestData)`. -/
noncomputable def optimize_scaling_run (original_data : List ℝ)
    (target_mean target_cv_error min_scale max_scale step : ℝ) (verbose : Bool) :
    Except PyError SearchState :=
  verboseEpilogue verbose
    (optimize_scaling original_data target_mean target_cv_error min_scale max_scale step)

/-- The state tracks the best candidate seen so far: either nothing was
examined yet (initial state, lines 48-52), or some examined index `k`
realizes the minimum cv_error among all examined candidates and is the
first index doing so (line 67 uses strict less-than, so ties keep the
earlier candidate). -/
def StateTracksBest (orig : List ℝ) (ocv bs : ℝ) (ms : List ℝ) (st : SearchState) : Prop :=
  (st.scalesTried = 0 ∧ st.bestError = none ∧ st.bestScale = bs ∧ st.bestData = none) ∨
  ∃ k, k < st.scalesTried ∧
    st.bestError = some (errAt orig ocv bs ms k) ∧
    st.bestScale = scale_factor bs (ms.getD k 0) ∧
    st.bestData = some (candRounded orig bs (ms.getD k 0)) ∧
    (∀ j, j < st.scalesTried → errAt orig ocv bs ms k ≤ errAt orig ocv bs ms j) ∧
    ∀ j, j < k → errAt orig ocv bs ms k < errAt orig ocv bs ms j

/-- Full loop invariant: the scales-tried counter stays in range, the best
candidate is tracked, no break means every examined candidate missed the
tolerance, and a break means the last examined candidate is the first one
within tolerance and is the recorded best. -/
def LoopInv (orig : List ℝ) (ocv tgt bs : ℝ) (ms : List ℝ) (st : SearchState) : Prop :=
  st.scalesTried ≤ ms.length ∧
  StateTracksBest orig ocv bs ms st ∧
  (st.broke = false → ∀ j, j < st.scalesTried → tgt < errAt orig ocv bs ms j) ∧
  (st.broke = true →
    0 < st.scalesTried ∧
    errAt orig ocv bs ms (st.scalesTried - 1) ≤ tgt ∧
    (∀ j, j < st.scalesTried - 1 → tgt < errAt orig ocv bs ms j) ∧
    st.bestError = some (errAt orig ocv bs ms (st.scalesTried - 1)) ∧
    st.bestScale = scale_factor bs (ms.getD (st.scalesTried - 1) 0) ∧
    st.bestData = some (candRounded orig bs (ms.getD (st.scalesTried - 1) 0)))

/-! ### Small list helpers -/

/-- getD through map, at an in-range index. -/
lemma getD_map_of_lt {α β : Type} (f : α → β) (dα : α) (dβ : β) :
    ∀ (l : List α) (i : ℕ), i < l.length → (l.map f).getD i dβ = f (l.getD i dα)
  | [], i, h => absurd h (by simp)
  | a :: l, 0, _ => rfl
  | a :: l, i + 1, h =>
    getD_map_of_lt f dα dβ l i (by simpa using h)

/-- getD of a take, below the cut. -/
lemma getD_take_of_lt {α : Type} (d : α) :
    ∀ (l : List α) (t i : ℕ), i < t → (l.take t).getD i d = l.getD i d
  | [], t, i, _ => by simp
  | a :: l, 0, i, h => absurd h (Nat.not_lt_zero i)
  | a :: l, t + 1, 0, _ => rfl
  | a :: l, t + 1, i + 1, h =>
    getD_take_of_lt d l t i (Nat.lt_of_succ_lt_succ h)

/-- The element a drop starts with is the getD at the drop point. -/
lemma getD_of_drop {α : Type} (d : α) :
    ∀ (l : List α) (n : ℕ) (m : α) (t : List α), l.drop n = m :: t → l.getD n d = m
  | [], n, m, t, h => by simp at h
  | a :: l, 0, m, t, h => by simpa using congrArg (fun s => List.headD s d) h
  | a :: l, n + 1, m, t, h => getD_of_drop d l n m t h

/-- Dropping one more past a cons drop. -/
lemma drop_succ_of_drop {α : Type} :
    ∀ (l : List α) (n : ℕ) (m : α) (t : List α), l.drop n = m :: t → l.drop (n + 1) = t
  | [], n, m, t, h => by simp at h
  | a :: l, 0, m, t, h => by
      simp only [List.drop_zero] at h
      simp [h]
  | a :: l, n + 1, m, t, h => drop_succ_of_drop l n m t h

/-- A drop that is a cons starts strictly inside the list. -/
lemma lt_length_of_drop_cons {α : Type} :
    ∀ (l : List α) (n : ℕ) (m : α) (t : List α), l.drop n = m :: t → n < l.length
  | [], n, m, t, h => by simp at h
  | a :: l, 0, m, t, _ => Nat.succ_pos _
  | a :: l, n + 1, m, t, h =>
    Nat.succ_lt_succ (lt_length_of_drop_cons l n m t h)

/-- An empty drop means the index is past the length. -/
lemma length_le_of_drop_nil {α : Type} :
    ∀ (l : List α) (n : ℕ), l.drop n = [] → l.length ≤ n
  | [], n, _ => Nat.zero_le n
  | a :: l, 0, h => by simp at h
  | a :: l, n + 1, h => Nat.succ_le_succ (length_le_of_drop_nil l n h)

/-! ### Rounding facts -/

/-- Fractional part bounds used by `npRound`. -/
lemma frac_bounds (x : ℝ) : 0 ≤ x - ⌊x⌋ ∧ x - ⌊x⌋ < 1 :=
  ⟨sub_nonneg.mpr (Int.floor_le x), sub_lt_iff_lt_add.mpr (by linarith [Int.lt_floor_add_one x])⟩

/-- npRound lands on the floor or its successor. -/
lemma npRound_mem (x : ℝ) : npRound x = ⌊x⌋ ∨ npRound x = ⌊x⌋ + 1 := by
  unfold npRound
  split_ifs <;> simp

/-- npRound is a nearest integer: the distance to the input is at most 1/2. -/
lemma npRound_nearest (x : ℝ) : |(npRound x : ℝ) - x| ≤ 1 / 2 := by
  obtain ⟨h0, h1⟩ := frac_bounds x
  unfold npRound
  split_ifs with hlt hgt heven
  · rw [abs_sub_comm, abs_of_nonneg (by linarith)]
    linarith
  · push_cast
    rw [abs_of_nonneg (by linarith)]
    linarith
  · have heq : x - ⌊x⌋ = 1 / 2 := le_antisymm (not_lt.mp hgt) (not_lt.mp hlt)
    rw [abs_sub_comm, abs_of_nonneg (by linarith), heq]
  · have heq : x - ⌊x⌋ = 1 / 2 := le_antisymm (not_lt.mp hgt) (not_lt.mp hlt)
    push_cast
    rw [abs_of_nonneg (by linarith)]
    linarith

/-! ### Loop characterization -/

/-- processCandidate when the candidate strictly improves and meets the
tolerance: best fields move to this candidate and the break fires. -/
lemma processCandidate_improves_le (orig : List ℝ) (ocv tgt bs : ℝ) (st : SearchState) (m : ℝ)
    (himp : improves (candErr orig ocv bs m) st.bestError)
    (hle : candErr orig ocv bs m ≤ tgt) :
    processCandidate orig ocv tgt bs st m =
      ⟨some (candErr orig ocv bs m), scale_factor bs m,
        some (candRounded orig bs m), st.scalesTried + 1, true⟩ := by
  simp only [processCandidate]
  rw [if_pos himp, if_pos hle]

/-- processCandidate when the candidate strictly improves but misses the
tolerance: best fields move to this candidate, no break. -/
lemma processCandidate_improves_gt (orig : List ℝ) (ocv tgt bs : ℝ) (st : SearchState) (m : ℝ)
    (himp : improves (candErr orig ocv bs m) st.bestError)
    (hgt : ¬ candErr orig ocv bs m ≤ tgt) :
    processCandidate orig ocv tgt bs st m =
      ⟨some (candErr orig ocv bs m), scale_factor bs m,
        some (candRounded orig bs m), st.scalesTried + 1, st.broke⟩ := by
  simp only [processCandidate]
  rw [if_pos himp, if_neg hgt]

/-- processCandidate when the candidate does not strictly improve: only
the scales-tried counter moves. -/
lemma processCandidate_not_improves (orig : List ℝ) (ocv tgt bs : ℝ) (st : SearchState) (m : ℝ)
    (himp : ¬ improves (candErr orig ocv bs m) st.bestError) :
    processCandidate orig ocv tgt bs st m = { st with scalesTried := st.scalesTried + 1 } := by
  simp only [processCandidate]
  rw [if_neg himp]

/-- One loop iteration preserves the invariant and increments the counter,
provided the loop is still running and there is a candidate left. -/
lemma processCandidate_inv (orig : List ℝ) (ocv tgt bs : ℝ) (ms : List ℝ) (st : SearchState)
    (hinv : LoopInv orig ocv tgt bs ms st) (hbroke : st.broke = false)
    (hlt : st.scalesTried < ms.length) :
    LoopInv orig ocv tgt bs ms (processCandidate orig ocv tgt bs st (ms.getD st.scalesTried 0)) ∧
    (processCandidate orig ocv tgt bs st (ms.getD st.scalesTried 0)).scalesTried
      = st.scalesTried + 1 := by
  obtain ⟨hlen, htrack, hfalse, -⟩ := hinv
  have hfalse' := hfalse hbroke
  have herrn : candErr orig ocv bs (ms.getD st.scalesTried 0)
      = errAt orig ocv bs ms st.scalesTried := rfl
  by_cases himp : improves (candErr orig ocv bs (ms.getD st.scalesTried 0)) st.bestError
  · by_cases hle : candErr orig ocv bs (ms.getD st.scalesTried 0) ≤ tgt
    · rw [processCandidate_improves_le orig ocv tgt bs st _ himp hle]
      rw [herrn] at hle
      refine ⟨⟨hlt, ?_, ?_, ?_⟩, rfl⟩
      · right
        refine ⟨st.scalesTried, Nat.lt_succ_self _, rfl, rfl, rfl, ?_, ?_⟩
        · intro j hj
          rcases lt_or_eq_of_le (Nat.lt_succ_iff.mp hj) with hj' | hj'
          · exact le_of_lt (lt_of_le_of_lt hle (hfalse' j hj'))
          · rw [hj']
        · intro j hj
          exact lt_of_le_of_lt hle (hfalse' j hj)
      · intro hco
        simp at hco
      · intro _
        exact ⟨Nat.succ_pos _, hle, hfalse', rfl, rfl, rfl⟩
    · rw [processCandidate_improves_gt orig ocv tgt bs st _ himp hle]
      rw [herrn] at hle
      have htgt : tgt < errAt orig ocv bs ms st.scalesTried := lt_of_not_le hle
      refine ⟨⟨hlt, ?_, ?_, ?_⟩, rfl⟩
      · right
        refine ⟨st.scalesTried, Nat.lt_succ_self _, rfl, rfl, rfl, ?_, ?_⟩
        · intro j hj
          rcases lt_or_eq_of_le (Nat.lt_succ_iff.mp hj) with hj' | hj'
          · rcases htrack with ⟨h0, hbe, -, -⟩ | ⟨k, hk, hbe, -, -, hmin, -⟩
            · exact absurd (h0 ▸ hj') (Nat.not_lt_zero j)
            · rw [hbe] at himp
              have himp' : errAt orig ocv bs ms st.scalesTried < errAt orig ocv bs ms k := himp
              exact le_of_lt (lt_of_lt_of_le himp' (hmin j hj'))
          · rw [hj']
        · intro j hj
          rcases htrack with ⟨h0, hbe, -, -⟩ | ⟨k, hk, hbe, -, -, hmin, -⟩
          · exact absurd (h0 ▸ hj) (Nat.not_lt_zero j)
          · rw [hbe] at himp
            have himp' : errAt orig ocv bs ms st.scalesTried < errAt orig ocv bs ms k := himp
            exact lt_of_lt_of_le himp' (hmin j hj)
      · intro _ j hj
        rcases lt_or_eq_of_le (Nat.lt_succ_iff.mp hj) with hj' | hj'
        · exact hfalse' j hj'
        · rw [hj']
          exact htgt
      · intro hco
        rw [hbroke] at hco
        simp at hco
  · rw [processCandidate_not_improves orig ocv tgt bs st _ himp]
    rcases htrack with ⟨h0, hbe, hbs, hbd⟩ | ⟨k, hk, hbe, hbs, hbd, hmin, hstrict⟩
    · rw [hbe] at himp
      exact absurd True.intro himp
    · rw [hbe] at himp
      have hkle : errAt orig ocv bs ms k ≤ errAt orig ocv bs ms st.scalesTried :=
        le_of_not_lt (fun hco => himp hco)
      refine ⟨⟨hlt, ?_, ?_, ?_⟩, rfl⟩
      · right
        exact ⟨k, Nat.lt_succ_of_lt hk, hbe, hbs, hbd, fun j hj => by
          rcases lt_or_eq_of_le (Nat.lt_succ_iff.mp hj) with hj' | hj'
          · exact hmin j hj'
          · rw [hj']
            exact hkle, hstrict⟩
      · intro _ j hj
        rcases lt_or_eq_of_le (Nat.lt_succ_iff.mp hj) with hj' | hj'
        · exact hfalse' j hj'
        · rw [hj']
          exact lt_of_lt_of_le (hfalse' k hk) hkle
      · intro hco
        rw [hbroke] at hco
        simp at hco

/-- Once the break has fired the loop does nothing more. -/
lemma scanLoop_broke (orig : List ℝ) (ocv tgt bs : ℝ) (st : SearchState) (h : st.broke = true) :
    ∀ ms : List ℝ, scanLoop orig ocv tgt bs ms st = st
  | [] => rfl
  | _ :: _ => by simp only [scanLoop, h, if_true]

/-- Scanning the remaining multipliers preserves the loop invariant, and a
run that never breaks examines the whole progression. -/
lemma scanLoop_inv (orig : List ℝ) (ocv tgt bs : ℝ) (full : List ℝ) :
    ∀ (rest : List ℝ) (st : SearchState),
      LoopInv orig ocv tgt bs full st →
      (st.broke = false → rest = full.drop st.scalesTried) →
      LoopInv orig ocv tgt bs full (scanLoop orig ocv tgt bs rest st) ∧
      ((scanLoop orig ocv tgt bs rest st).broke = false →
        (scanLoop orig ocv tgt bs rest st).scalesTried = full.length)
  | [], st, hinv, hrest => by
      refine ⟨hinv, ?_⟩
      intro hb
      have h1 : full.drop st.scalesTried = [] := (hrest hb).symm
      exact le_antisymm hinv.1 (length_le_of_drop_nil full st.scalesTried h1)
  | m :: ms, st, hinv, hrest => by
      by_cases hb : st.broke = true
      · rw [scanLoop_broke orig ocv tgt bs st hb]
        refine ⟨hinv, ?_⟩
        intro hco
        rw [hco] at hb
        exact absurd hb (by simp)
      · have hb' : st.broke = false := by
          cases hsb : st.broke
          · rfl
          · exact absurd hsb hb
        have hdrop := hrest hb'
        have hm : full.getD st.scalesTried 0 = m :=
          getD_of_drop 0 full st.scalesTried m ms hdrop.symm
        have hlt : st.scalesTried < full.length :=
          lt_length_of_drop_cons full st.scalesTried m ms hdrop.symm
        obtain ⟨hinv2, hcount⟩ := processCandidate_inv orig ocv tgt bs full st hinv hb' hlt
        rw [hm] at hinv2 hcount
        have hstep : scanLoop orig ocv tgt bs (m :: ms) st
            = scanLoop orig ocv tgt bs ms (processCandidate orig ocv tgt bs st m) := by
          simp only [scanLoop, hb', Bool.false_eq_true, if_false]
        rw [hstep]
        refine scanLoop_inv orig ocv tgt bs full ms
          (processCandidate orig ocv tgt bs st m) hinv2 ?_
        intro _
        rw [hcount]
        exact (drop_succ_of_drop full st.scalesTried m ms hdrop.symm).symm

/-- The final state of optimize_scaling satisfies the loop invariant, and a
run that never breaks examines every candidate of the progression. -/
lemma optimize_scaling_inv (orig : List ℝ) (tm tgt mn mx stp : ℝ) :
    LoopInv orig (calculate_cv orig) tgt (base_scale orig tm) (npArange mn mx stp)
      (optimize_scaling orig tm tgt mn mx stp) ∧
    ((optimize_scaling orig tm tgt mn mx stp).broke = false →
      (optimize_scaling orig tm tgt mn mx stp).scalesTried = (npArange mn mx stp).length) := by
  have hinit : LoopInv orig (calculate_cv orig) tgt (base_scale orig tm) (npArange mn mx stp)
      (initState (base_scale orig tm)) := by
    refine ⟨Nat.zero_le _, Or.inl ⟨rfl, rfl, rfl, rfl⟩, ?_, ?_⟩
    · intro _ j hj
      exact absurd hj (Nat.not_lt_zero j)
    · intro hco
      simp [initState] at hco
  exact scanLoop_inv orig (calculate_cv orig) tgt (base_scale orig tm) (npArange mn mx stp)
    (npArange mn mx stp) (initState (base_scale orig tm)) hinit (fun _ => rfl)

/-- The initial state satisfies the loop invariant for any progression. -/
lemma initState_inv (orig : List ℝ) (ocv tgt bs : ℝ) (ms : List ℝ) :
    LoopInv orig ocv tgt bs ms (initState bs) := by
  refine ⟨Nat.zero_le _, Or.inl ⟨rfl, rfl, rfl, rfl⟩, ?_, ?_⟩
  · intro _ j hj
    exact absurd hj (Nat.not_lt_zero j)
  · intro hco
    simp [initState] at hco

/-- Scanning a concatenation is scanning the two parts in order; with the
break flag this makes the state after `take t` the state of the full scan
at point `t`. -/
lemma scanLoop_append (orig : List ℝ) (ocv tgt bs : ℝ) :
    ∀ (a b : List ℝ) (st : SearchState),
      scanLoop orig ocv tgt bs (a ++ b) st
        = scanLoop orig ocv tgt bs b (scanLoop orig ocv tgt bs a st)
  | [], b, st => rfl
  | m :: a, b, st => by
      by_cases hb : st.broke = true
      · rw [scanLoop_broke orig ocv tgt bs st hb (m :: a),
          scanLoop_broke orig ocv tgt bs st hb (m :: a ++ b),
          scanLoop_broke orig ocv tgt bs st hb b]
      · have hb' : st.broke = false := by
          cases hsb : st.broke
          · rfl
          · exact absurd hsb hb
        have h1 : scanLoop orig ocv tgt bs (m :: a ++ b) st
            = scanLoop orig ocv tgt bs (a ++ b)
                (processCandidate orig ocv tgt bs st m) := by
          simp only [scanLoop, hb', Bool.false_eq_true, if_false, List.cons_append]
          rfl
        have h2 : scanLoop orig ocv tgt bs (m :: a) st
            = scanLoop orig ocv tgt bs a (processCandidate orig ocv tgt bs st m) := by
          simp only [scanLoop, hb', Bool.false_eq_true, if_false]
        rw [h1, h2, scanLoop_append orig ocv tgt bs a b]

/-- errAt over a truncated progression agrees below the cut. -/
lemma errAt_take (orig : List ℝ) (ocv bs : ℝ) (full : List ℝ) (t i : ℕ) (h : i < t) :
    errAt orig ocv bs (full.take t) i = errAt orig ocv bs full i := by
  unfold errAt
  rw [getD_take_of_lt 0 full t i h]

/-- Best-candidate tracking over a truncated progression transfers to the
full progression. -/
lemma tracksBest_take (orig : List ℝ) (ocv bs : ℝ) (full : List ℝ) (t : ℕ) (st : SearchState)
    (hlen : st.scalesTried ≤ (full.take t).length)
    (h : StateTracksBest orig ocv bs (full.take t) st) :
    StateTracksBest orig ocv bs full st := by
  have htlen : (full.take t).length ≤ t := by
    rw [List.length_take]
    exact min_le_left _ _
  have hidx : ∀ j, j < st.scalesTried → j < t := fun j hj =>
    lt_of_lt_of_le (lt_of_lt_of_le hj hlen) htlen
  rcases h with hA | ⟨k, hk, hbe, hbs, hbd, hmin, hstrict⟩
  · exact Or.inl hA
  · right
    refine ⟨k, hk, ?_, ?_, ?_, ?_, ?_⟩
    · rw [hbe, errAt_take orig ocv bs full t k (hidx k hk)]
    · rw [hbs, getD_take_of_lt 0 full t k (hidx k hk)]
    · rw [hbd, getD_take_of_lt 0 full t k (hidx k hk)]
    · intro j hj
      rw [← errAt_take orig ocv bs full t k (hidx k hk),
        ← errAt_take orig ocv bs full t j (hidx j hj)]
      exact hmin j hj
    · intro j hj
      rw [← errAt_take orig ocv bs full t k (hidx k hk),
        ← errAt_take orig ocv bs full t j (hidx j (lt_trans hj hk))]
      exact hstrict j hj

/-- With an empty-progression configuration (stop at or below start,
positive step) np.arange yields no candidates. -/
lemma npArange_nil (mn mx stp : ℝ) (h : mx ≤ mn) (hs : 0 < stp) : npArange mn mx stp = [] := by
  unfold npArange
  have h1 : (mx - mn) / stp ≤ 0 :=
    div_nonpos_iff.mpr (Or.inr ⟨sub_nonpos.mpr h, le_of_lt hs⟩)
  have h2 : ⌈(mx - mn) / stp⌉ ≤ 0 := by
    refine Int.ceil_le.mpr ?_
    push_cast
    exact h1
  rw [Int.toNat_of_nonpos h2]
  rfl

/-- optimize_scaling on an empty progression leaves the pre-loop state. -/
lemma opt_empty_range (orig : List ℝ) (tm tgt mn mx stp : ℝ) (h : mx ≤ mn) (hs : 0 < stp) :
    optimize_scaling orig tm tgt mn mx stp = initState (base_scale orig tm) := by
  unfold optimize_scaling
  rw [npArange_nil mn mx stp h hs]
  rfl

/-- On an empty progression the full call raises TypeError in the verbose
diagnostics (line 86, `np.mean` of the `None` sentinel) and, without
verbose, returns the pre-loop state normally. -/
lemma opt_run_empty_range (orig : List ℝ) (tm tgt mn mx stp : ℝ) (h : mx ≤ mn) (hs : 0 < stp) :
    optimize_scaling_run orig tm tgt mn mx stp true = Except.error PyError.typeError ∧
    optimize_scaling_run orig tm tgt mn mx stp false
      = Except.ok (initState (base_scale orig tm)) := by
  have h2 := opt_empty_range orig tm tgt mn mx stp h hs
  constructor
  · unfold optimize_scaling_run
    rw [h2]
    rfl
  · unfold optimize_scaling_run
    rw [h2]
    rfl

/-! ### Claim theorems -/

/-- C1: for every valid input (non-empty series with positive mean and
positive CV, max above min, positive step, positive tolerance), if
position `k` is the first candidate of the scan progression whose
cv_error is within the tolerance, the search breaks exactly there: it
returns with `met_target` (the break fired), has examined exactly `k + 1`
candidates (so 1 when the very first candidate satisfies), and the
returned best candidate is the candidate at `k`. -/
theorem optimize_scaling_early_exit
    (orig : List ℝ) (tm tgt mn mx stp : ℝ) (k : ℕ)
    (hne : orig ≠ []) (hmean : 0 < npMean orig) (hcv : 0 < calculate_cv orig)
    (hrange : mn < mx) (hstep : 0 < stp) (htgt : 0 < tgt)
    (hk : k < (npArange mn mx stp).length)
    (hsat : errAt orig (calculate_cv orig) (base_scale orig tm) (npArange mn mx stp) k ≤ tgt)
    (hfirst : ∀ j, j < k →
      tgt < errAt orig (calculate_cv orig) (base_scale orig tm) (npArange mn mx stp) j) :
    (optimize_scaling orig tm tgt mn mx stp).broke = true ∧
    (optimize_scaling orig tm tgt mn mx stp).scalesTried = k + 1 ∧
    (optimize_scaling orig tm tgt mn mx stp).bestError
      = some (errAt orig (calculate_cv orig) (base_scale orig tm) (npArange mn mx stp) k) ∧
    (optimize_scaling orig tm tgt mn mx stp).bestScale
      = scale_factor (base_scale orig tm) ((npArange mn mx stp).getD k 0) ∧
    (optimize_scaling orig tm tgt mn mx stp).bestData
      = some (candRounded orig (base_scale orig tm) ((npArange mn mx stp).getD k 0)) := by
  obtain ⟨⟨hlen, htrack, hfalse, htrue⟩, hfull⟩ := optimize_scaling_inv orig tm tgt mn mx stp
  by_cases hb : (optimize_scaling orig tm tgt mn mx stp).broke = true
  · obtain ⟨hpos, hlast, hbefore, hbe, hbsc, hbd⟩ := htrue hb
    have hkeq : (optimize_scaling orig tm tgt mn mx stp).scalesTried - 1 = k := by
      rcases Nat.lt_trichotomy
          ((optimize_scaling orig tm tgt mn mx stp).scalesTried - 1) k with hlt2 | heq | hgt2
      · exact absurd hlast (not_le.mpr (hfirst _ hlt2))
      · exact heq
      · exact absurd hsat (not_le.mpr (hbefore k hgt2))
    have hcount : (optimize_scaling orig tm tgt mn mx stp).scalesTried = k + 1 := by omega
    rw [hkeq] at hbe hbsc hbd
    exact ⟨hb, hcount, hbe, hbsc, hbd⟩
  · have hb2 : (optimize_scaling orig tm tgt mn mx stp).broke = false := by
      cases hsb : (optimize_scaling orig tm tgt mn mx stp).broke
      · rfl
      · exact absurd hsb hb
    have hk2 : k < (optimize_scaling orig tm tgt mn mx stp).scalesTried := by
      rw [hfull hb2]
      exact hk
    exact absurd hsat (not_le.mpr (hfalse hb2 k hk2))

/-- C2: at every point of the scan (the state after processing the first
`t` candidates, for any `t`) the tracked best candidate realizes the
minimum cv_error among the candidates examined so far, ties going to the
first-examined (smallest multiplier) candidate because line 67 compares
with strict less-than; and if no candidate of the whole progression meets
the tolerance, the search terminates with `met_target = false` (no break)
after examining the whole progression, returning that best-of-scan
candidate. -/
theorem optimize_scaling_tracks_minimum
    (orig : List ℝ) (tm tgt mn mx stp : ℝ)
    (hne : orig ≠ []) (hmean : 0 < npMean orig) (hcv : 0 < calculate_cv orig)
    (hrange : mn < mx) (hstep : 0 < stp) (htgt : 0 < tgt) :
    (∀ t : ℕ, StateTracksBest orig (calculate_cv orig) (base_scale orig tm)
        (npArange mn mx stp)
        (scanLoop orig (calculate_cv orig) tgt (base_scale orig tm)
          ((npArange mn mx stp).take t) (initState (base_scale orig tm)))) ∧
    ((∀ j, j < (npArange mn mx stp).length →
        tgt < errAt orig (calculate_cv orig) (base_scale orig tm) (npArange mn mx stp) j) →
      (optimize_scaling orig tm tgt mn mx stp).broke = false ∧
      (optimize_scaling orig tm tgt mn mx stp).scalesTried = (npArange mn mx stp).length ∧
      StateTracksBest orig (calculate_cv orig) (base_scale orig tm) (npArange mn mx stp)
        (optimize_scaling orig tm tgt mn mx stp)) := by
  constructor
  · intro t
    have hinit := initState_inv orig (calculate_cv orig) tgt (base_scale orig tm)
      ((npArange mn mx stp).take t)
    have h := scanLoop_inv orig (calculate_cv orig) tgt (base_scale orig tm)
      ((npArange mn mx stp).take t) ((npArange mn mx stp).take t)
      (initState (base_scale orig tm)) hinit (fun _ => rfl)
    exact tracksBest_take orig (calculate_cv orig) (base_scale orig tm)
      (npArange mn mx stp) t _ h.1.1 h.1.2.1
  · intro hnone
    obtain ⟨⟨hlen, htrack, hfalse, htrue⟩, hfull⟩ := optimize_scaling_inv orig tm tgt mn mx stp
    by_cases hb : (optimize_scaling orig tm tgt mn mx stp).broke = true
    · obtain ⟨hpos, hlast, -, -, -, -⟩ := htrue hb
      have hidx : (optimize_scaling orig tm tgt mn mx stp).scalesTried - 1
          < (npArange mn mx stp).length := by omega
      exact absurd hlast (not_le.mpr (hnone _ hidx))
    · have hb2 : (optimize_scaling orig tm tgt mn mx stp).broke = false := by
        cases hsb : (optimize_scaling orig tm tgt mn mx stp).broke
        · rfl
        · exact absurd hsb hb
      exact ⟨hb2, hfull hb2, htrack⟩

/-- C9: whenever the search returns a rounded series at all, the returned
scale and series belong to the same examined candidate: the series is
exactly the elementwise rounding of the original data multiplied by the
returned best scale. -/
theorem best_scale_data_consistent (orig : List ℝ) (tm tgt mn mx stp : ℝ) (d : List ℤ)
    (hd : (optimize_scaling orig tm tgt mn mx stp).bestData = some d) :
    d = roundSeries (orig.map
      (fun x => x * (optimize_scaling orig tm tgt mn mx stp).bestScale)) := by
  obtain ⟨⟨hlen, htrack, -, -⟩, -⟩ := optimize_scaling_inv orig tm tgt mn mx stp
  rcases htrack with ⟨-, -, -, hbd⟩ | ⟨k, hk, -, hbs, hbd, -, -⟩
  · rw [hbd] at hd
    exact absurd hd (by simp)
  · rw [hbd] at hd
    have hd2 := Option.some.inj hd
    rw [hbs, ← hd2]
    rfl

/-- C10 counterexample: with the source default `verbose=True` an empty
multiplier progression does not return normally: the diagnostics block
raises TypeError at line 86 (`np.mean(best_data)` with `best_data` still
`None`) before the return at line 89 is reached. -/
theorem empty_progression_counterexample :
    optimize_scaling_run [(1 : ℝ), 2, 3] 6 (1 / 100) 5 5 (1 / 2) true
      = Except.error PyError.typeError :=
  (opt_run_empty_range [(1 : ℝ), 2, 3] 6 (1 / 100) 5 5 (1 / 2) (le_refl 5) (by norm_num)).1

/-- C10 amended: with an empty multiplier progression (for example max at
or below min with a positive step) the loop examines zero candidates,
leaving best scale equal to the base scale
`target_mean / mean(original_data)` and no rounded series; with
`verbose=False` the call then returns this state normally without any
signalled error, but with the source default `verbose=True` it raises
TypeError at line 86 (`np.mean(None)`) before reaching the return. -/
theorem empty_progression_behaviour (orig : List ℝ) (tm tgt mn mx stp : ℝ)
    (h : mx ≤ mn) (hs : 0 < stp) :
    npArange mn mx stp = [] ∧
    (optimize_scaling orig tm tgt mn mx stp).scalesTried = 0 ∧
    (optimize_scaling orig tm tgt mn mx stp).bestScale = tm / npMean orig ∧
    (optimize_scaling orig tm tgt mn mx stp).bestData = none ∧
    optimize_scaling_run orig tm tgt mn mx stp false
      = Except.ok (initState (base_scale orig tm)) ∧
    optimize_scaling_run orig tm tgt mn mx stp true = Except.error PyError.typeError := by
  have h2 := opt_empty_range orig tm tgt mn mx stp h hs
  have h3 := opt_run_empty_range orig tm tgt mn mx stp h hs
  refine ⟨npArange_nil mn mx stp h hs, ?_, ?_, ?_, h3.2, h3.1⟩ <;> rw [h2] <;> rfl

/-- C3 counterexample: on an invalid range (max_multiplier below
min_multiplier, positive step) no `InvalidRangeError` is signalled: at
this concrete input the call with the source default `verbose=True` dies
with the incidental TypeError of `np.mean(None)` at line 86, and with
`verbose=False` it returns normally with the sentinel pre-loop state
(`None` rounded series, zero candidates).  In neither case does the code
signal an explicit range error — `PyError` shows the embedded code can
raise nothing but that TypeError. -/
theorem invalid_range_counterexample :
    optimize_scaling_run [(1 : ℝ), 3] 2 (1 / 100) 2 1 (1 / 100) true
      = Except.error PyError.typeError ∧
    optimize_scaling_run [(1 : ℝ), 3] 2 (1 / 100) 2 1 (1 / 100) false
      = Except.ok (initState (base_scale [(1 : ℝ), 3] 2)) :=
  opt_run_empty_range [(1 : ℝ), 3] 2 (1 / 100) 2 1 (1 / 100) (by norm_num) (by norm_num)

/-- C3 amended: the code defines no `InvalidRangeError`.  For every input
with `max_multiplier <= min_multiplier` and a positive step the
progression is empty and the loop examines zero candidates, leaving the
sentinel `None` rounded series and `best_scale = base_scale`; with
`verbose=False` the call then returns this best-effort state normally,
while with the source default `verbose=True` it crashes with the
incidental TypeError of `np.mean(None)` at line 86 — not the explicit
range error of the claim. -/
theorem invalid_range_no_range_error (orig : List ℝ) (tm tgt mn mx stp : ℝ)
    (h : mx ≤ mn) (hs : 0 < stp) :
    optimize_scaling_run orig tm tgt mn mx stp true = Except.error PyError.typeError ∧
    optimize_scaling_run orig tm tgt mn mx stp false
      = Except.ok (initState (base_scale orig tm)) ∧
    (optimize_scaling orig tm tgt mn mx stp).scalesTried = 0 ∧
    (optimize_scaling orig tm tgt mn mx stp).bestData = none ∧
    (optimize_scaling orig tm tgt mn mx stp).bestScale = base_scale orig tm := by
  have h2 := opt_empty_range orig tm tgt mn mx stp h hs
  have h3 := opt_run_empty_range orig tm tgt mn mx stp h hs
  refine ⟨h3.1, h3.2, ?_, ?_, ?_⟩ <;> rw [h2] <;> rfl

/-- C4 counterexample: on the zero-mean series `[1, -1]` the CV
computation does not signal any condition: it divides anyway and returns
a substitute value (0 in this exact embedding; IEEE arithmetic produces
inf) — there is no `ZeroMeanError` anywhere in the code. -/
theorem zero_mean_counterexample :
    npMean [(1 : ℝ), -1] = 0 ∧ calculate_cv [(1 : ℝ), -1] = 0 := by
  have hm : npMean [(1 : ℝ), -1] = 0 := by
    unfold npMean
    norm_num
  refine ⟨hm, ?_⟩
  unfold calculate_cv
  rw [hm, div_zero]

/-- C4 amended: for every series whose arithmetic mean is 0,
`calculate_cv` silently returns a substitute value instead of signalling
`ZeroMeanError`: it performs the division by the zero mean anyway (0 in
this exact embedding, matching the silent-substitute behaviour the spec
itself attributes to the original code). -/
theorem zero_mean_cv_substitute (data : List ℝ) (h : npMean data = 0) :
    calculate_cv data = 0 := by
  unfold calculate_cv
  rw [h, div_zero]

/-- C4 witness: the amended claim at the concrete zero-mean series
`[2, -2]`. -/
theorem zero_mean_cv_substitute_witness :
    npMean [(2 : ℝ), -2] = 0 ∧ calculate_cv [(2 : ℝ), -2] = 0 :=
  ⟨by unfold npMean; norm_num,
   zero_mean_cv_substitute [(2 : ℝ), -2] (by unfold npMean; norm_num)⟩

/-- C5: the search is a pure function of its inputs: two invocations with
identical inputs return identical results (same best scale, same rounded
series, same candidate count — the whole final state coincides). -/
theorem optimize_scaling_deterministic (o₁ o₂ : List ℝ)
    (tm₁ tm₂ tgt₁ tgt₂ mn₁ mn₂ mx₁ mx₂ stp₁ stp₂ : ℝ)
    (h : o₁ = o₂ ∧ tm₁ = tm₂ ∧ tgt₁ = tgt₂ ∧ mn₁ = mn₂ ∧ mx₁ = mx₂ ∧ stp₁ = stp₂) :
    optimize_scaling o₁ tm₁ tgt₁ mn₁ mx₁ stp₁ = optimize_scaling o₂ tm₂ tgt₂ mn₂ mx₂ stp₂ := by
  obtain ⟨h1, h2, h3, h4, h5, h6⟩ := h
  rw [h1, h2, h3, h4, h5, h6]

/-- C5 witness: determinism at one concrete input. -/
theorem optimize_scaling_deterministic_witness :
    (([1] : List ℝ) = [1] ∧ (6 : ℝ) = 6 ∧ (1 / 100 : ℝ) = 1 / 100 ∧ (1 : ℝ) = 1 ∧
      (20 : ℝ) = 20 ∧ (1 / 200 : ℝ) = 1 / 200) ∧
    optimize_scaling [1] 6 (1 / 100) 1 20 (1 / 200)
      = optimize_scaling [1] 6 (1 / 100) 1 20 (1 / 200) :=
  ⟨⟨rfl, rfl, rfl, rfl, rfl, rfl⟩,
   optimize_scaling_deterministic [1] [1] 6 6 (1 / 100) (1 / 100) 1 1 20 20 (1 / 200) (1 / 200)
     ⟨rfl, rfl, rfl, rfl, rfl, rfl⟩⟩

/-- C6: for a fixed positive base scale, the derived scale factor
`base_scale * scale_multiplier` (line 59) is strictly increasing in the
multiplier. -/
theorem scale_factor_strict_mono (bs m₁ m₂ : ℝ) (hb : 0 < bs) (h : m₁ < m₂) :
    scale_factor bs m₁ < scale_factor bs m₂ := by
  unfold scale_factor
  exact (mul_lt_mul_left hb).mpr h

/-- C6 witness: strict monotonicity at base 2 and multipliers 1 < 3. -/
theorem scale_factor_strict_mono_witness :
    (0 : ℝ) < 2 ∧ (1 : ℝ) < 3 ∧ scale_factor 2 1 < scale_factor 2 3 :=
  ⟨by norm_num, by norm_num,
   scale_factor_strict_mono 2 1 3 (by norm_num) (by norm_num)⟩

/-- C7: for every candidate, the quantizer (lines 60-61) maps the scaled
series to an integer series of the same length, in the same element
order, rounding each element independently to a nearest integer (distance
at most one half). -/
theorem quantizer_length_order (orig : List ℝ) (bs m : ℝ) :
    (candRounded orig bs m).length = orig.length ∧
    ∀ i, i < orig.length →
      (candRounded orig bs m).getD i 0 = npRound ((orig.getD i 0) * scale_factor bs m) ∧
      |((candRounded orig bs m).getD i 0 : ℝ) - (orig.getD i 0) * scale_factor bs m| ≤ 1 / 2 := by
  constructor
  · unfold candRounded roundSeries
    rw [List.length_map, List.length_map]
  · intro i hi
    have hmap : (candRounded orig bs m).getD i 0
        = npRound ((orig.getD i 0) * scale_factor bs m) := by
      unfold candRounded roundSeries
      rw [List.map_map]
      exact getD_map_of_lt (npRound ∘ fun x => x * scale_factor bs m) 0 0 orig i hi
    refine ⟨hmap, ?_⟩
    rw [hmap]
    exact npRound_nearest _

/-- C7 witness: the quantizer contract at a concrete series, scale and
index. -/
theorem quantizer_length_order_witness :
    (0 : ℕ) < ([(3 : ℝ), 5]).length ∧
    ((candRounded [(3 : ℝ), 5] 2 1).getD 0 0
        = npRound (((([(3 : ℝ), 5]).getD 0 0)) * scale_factor 2 1) ∧
      |((candRounded [(3 : ℝ), 5] 2 1).getD 0 0 : ℝ)
          - (([(3 : ℝ), 5]).getD 0 0) * scale_factor 2 1| ≤ 1 / 2) :=
  ⟨by norm_num, (quantizer_length_order [(3 : ℝ), 5] 2 1).2 0 (by norm_num)⟩

/-- C8: the quantizer tie-break at fractional part exactly one half is
round half to even, the semantics of np.round: the result is even, it is
one of the two neighbouring integers, and it is exactly one half away
from the input. -/
theorem npRound_half_to_even (x : ℝ) (h : x - ⌊x⌋ = 1 / 2) :
    Even (npRound x) ∧ (npRound x = ⌊x⌋ ∨ npRound x = ⌊x⌋ + 1) ∧
    |(npRound x : ℝ) - x| = 1 / 2 := by
  have h1 : ¬ (x - ⌊x⌋ < 1 / 2) := by
    rw [h]
    exact lt_irrefl _
  have h2 : ¬ ((1 : ℝ) / 2 < x - ⌊x⌋) := by
    rw [h]
    exact lt_irrefl _
  unfold npRound
  rw [if_neg h1, if_neg h2]
  by_cases he : ⌊x⌋ % 2 = 0
  · rw [if_pos he]
    refine ⟨Int.even_iff.mpr he, Or.inl rfl, ?_⟩
    rw [abs_sub_comm, show x - (⌊x⌋ : ℝ) = 1 / 2 from h]
    norm_num
  · rw [if_neg he]
    refine ⟨Int.even_iff.mpr (by omega), Or.inr rfl, ?_⟩
    have h3 : ((⌊x⌋ : ℝ) + 1) - x = 1 / 2 := by linarith
    push_cast
    rw [h3]
    norm_num

/-- C8 witness: the tie at 3/2 rounds to the even neighbour. -/
theorem npRound_half_to_even_witness :
    ((3 : ℝ) / 2 - ⌊(3 : ℝ) / 2⌋ = 1 / 2) ∧
    (Even (npRound ((3 : ℝ) / 2)) ∧
      (npRound ((3 : ℝ) / 2) = ⌊(3 : ℝ) / 2⌋ ∨ npRound ((3 : ℝ) / 2) = ⌊(3 : ℝ) / 2⌋ + 1) ∧
      |(npRound ((3 : ℝ) / 2) : ℝ) - (3 : ℝ) / 2| = 1 / 2) := by
  have hf : ⌊(3 : ℝ) / 2⌋ = 1 := Int.floor_eq_iff.mpr (by norm_num)
  have hh : (3 : ℝ) / 2 - ⌊(3 : ℝ) / 2⌋ = 1 / 2 := by
    rw [hf]
    norm_num
  exact ⟨hh, npRound_half_to_even ((3 : ℝ) / 2) hh⟩

/-! ### Concrete evaluation of one search run, for the witnesses -/

/-- Mean of the example series. -/
lemma mean_example : npMean [(1 : ℝ), 3] = 2 := by
  unfold npMean
  norm_num

/-- CV of the example series: std 1, mean 2. -/
lemma cv_example : calculate_cv [(1 : ℝ), 3] = 1 / 2 := by
  unfold calculate_cv npStd
  rw [mean_example]
  norm_num

/-- np.round is the identity on integers. -/
lemma npRound_intCast (n : ℤ) : npRound (n : ℝ) = n := by
  unfold npRound
  norm_num [Int.floor_intCast]

/-- The example progression holds the single multiplier 1. -/
lemma arange_example : npArange 1 (3 / 2) 1 = [1] := by
  unfold npArange
  have hc : ⌈((3 : ℝ) / 2 - 1) / 1⌉ = 1 := by
    rw [Int.ceil_eq_iff]
    norm_num
  rw [hc]
  have hr : List.range (1 : ℤ).toNat = [0] := rfl
  rw [hr]
  norm_num

/-- Base scale of the example run: target mean 2 over mean 2. -/
lemma base_example : base_scale [(1 : ℝ), 3] 2 = 1 := by
  unfold base_scale
  rw [mean_example]
  norm_num

/-- Scale factor of the single example candidate. -/
lemma sf_example : scale_factor (base_scale [(1 : ℝ), 3] 2) 1 = 1 := by
  rw [base_example]
  unfold scale_factor
  norm_num

/-- Rounded series of the single example candidate. -/
lemma cand_example : candRounded [(1 : ℝ), 3] (base_scale [(1 : ℝ), 3] 2) 1 = [1, 3] := by
  unfold candRounded roundSeries
  simp only [List.map_cons, List.map_nil]
  rw [show (1 : ℝ) * scale_factor (base_scale [(1 : ℝ), 3] 2) 1 = ((1 : ℤ) : ℝ) by
      rw [sf_example]; norm_num,
    show (3 : ℝ) * scale_factor (base_scale [(1 : ℝ), 3] 2) 1 = ((3 : ℤ) : ℝ) by
      rw [sf_example]; norm_num,
    npRound_intCast 1, npRound_intCast 3]

/-- cv_error of the single example candidate is exactly zero. -/
lemma candErr_example :
    candErr [(1 : ℝ), 3] (calculate_cv [(1 : ℝ), 3]) (base_scale [(1 : ℝ), 3] 2) 1 = 0 := by
  unfold candErr
  rw [cand_example]
  rw [show (([1, 3] : List ℤ).map (fun z => (z : ℝ))) = [(1 : ℝ), 3] by norm_num]
  rw [cv_example]
  norm_num

/-- The indexed error of the example run at position 0. -/
lemma errAt_example :
    errAt [(1 : ℝ), 3] (calculate_cv [(1 : ℝ), 3]) (base_scale [(1 : ℝ), 3] 2)
      (npArange 1 (3 / 2) 1) 0 = 0 := by
  unfold errAt
  rw [arange_example]
  exact candErr_example

/-- Full evaluation of the example search run: one candidate, exact CV
match, early exit. -/
lemma opt_example : optimize_scaling [(1 : ℝ), 3] 2 (1 / 100) 1 (3 / 2) 1
    = ⟨some 0, 1, some [1, 3], 1, true⟩ := by
  unfold optimize_scaling
  rw [arange_example]
  have h1 : scanLoop [(1 : ℝ), 3] (calculate_cv [(1 : ℝ), 3]) (1 / 100)
      (base_scale [(1 : ℝ), 3] 2) [1] (initState (base_scale [(1 : ℝ), 3] 2))
      = processCandidate [(1 : ℝ), 3] (calculate_cv [(1 : ℝ), 3]) (1 / 100)
          (base_scale [(1 : ℝ), 3] 2) (initState (base_scale [(1 : ℝ), 3] 2)) 1 := by
    simp only [scanLoop, initState, Bool.false_eq_true, if_false]
  rw [h1]
  rw [processCandidate_improves_le [(1 : ℝ), 3] (calculate_cv [(1 : ℝ), 3]) (1 / 100)
    (base_scale [(1 : ℝ), 3] 2) (initState (base_scale [(1 : ℝ), 3] 2)) 1 True.intro
    (by rw [candErr_example]; norm_num)]
  rw [candErr_example, cand_example, sf_example]
  rfl

/-- C1 witness: the early-exit theorem at the concrete run, where the
very first scanned candidate already satisfies the tolerance and exactly
one candidate is examined. -/
theorem optimize_scaling_early_exit_witness :
    (([(1 : ℝ), 3]) ≠ [] ∧ 0 < npMean [(1 : ℝ), 3] ∧ 0 < calculate_cv [(1 : ℝ), 3] ∧
      (1 : ℝ) < 3 / 2 ∧ (0 : ℝ) < 1 ∧ (0 : ℝ) < 1 / 100 ∧
      0 < (npArange 1 (3 / 2) 1).length ∧
      errAt [(1 : ℝ), 3] (calculate_cv [(1 : ℝ), 3]) (base_scale [(1 : ℝ), 3] 2)
        (npArange 1 (3 / 2) 1) 0 ≤ 1 / 100) ∧
    ((optimize_scaling [(1 : ℝ), 3] 2 (1 / 100) 1 (3 / 2) 1).broke = true ∧
      (optimize_scaling [(1 : ℝ), 3] 2 (1 / 100) 1 (3 / 2) 1).scalesTried = 0 + 1 ∧
      (optimize_scaling [(1 : ℝ), 3] 2 (1 / 100) 1 (3 / 2) 1).bestError
        = some (errAt [(1 : ℝ), 3] (calculate_cv [(1 : ℝ), 3]) (base_scale [(1 : ℝ), 3] 2)
            (npArange 1 (3 / 2) 1) 0) ∧
      (optimize_scaling [(1 : ℝ), 3] 2 (1 / 100) 1 (3 / 2) 1).bestScale
        = scale_factor (base_scale [(1 : ℝ), 3] 2) ((npArange 1 (3 / 2) 1).getD 0 0) ∧
      (optimize_scaling [(1 : ℝ), 3] 2 (1 / 100) 1 (3 / 2) 1).bestData
        = some (candRounded [(1 : ℝ), 3] (base_scale [(1 : ℝ), 3] 2)
            ((npArange 1 (3 / 2) 1).getD 0 0))) := by
  have hne : ([(1 : ℝ), 3]) ≠ [] := by simp
  have hmean : 0 < npMean [(1 : ℝ), 3] := by
    rw [mean_example]
    norm_num
  have hcv : 0 < calculate_cv [(1 : ℝ), 3] := by
    rw [cv_example]
    norm_num
  have hk : 0 < (npArange 1 (3 / 2) 1).length := by
    rw [arange_example]
    norm_num
  have hsat : errAt [(1 : ℝ), 3] (calculate_cv [(1 : ℝ), 3]) (base_scale [(1 : ℝ), 3] 2)
      (npArange 1 (3 / 2) 1) 0 ≤ 1 / 100 := by
    rw [errAt_example]
    norm_num
  exact ⟨⟨hne, hmean, hcv, by norm_num, by norm_num, by norm_num, hk, hsat⟩,
    optimize_scaling_early_exit [(1 : ℝ), 3] 2 (1 / 100) 1 (3 / 2) 1 0 hne hmean hcv
      (by norm_num) (by norm_num) (by norm_num) hk hsat
      (fun j hj => absurd hj (Nat.not_lt_zero j))⟩

/-- C2 witness: the best-tracking theorem at the concrete run. -/
theorem optimize_scaling_tracks_minimum_witness :
    (([(1 : ℝ), 3]) ≠ [] ∧ 0 < npMean [(1 : ℝ), 3] ∧ 0 < calculate_cv [(1 : ℝ), 3] ∧
      (1 : ℝ) < 3 / 2 ∧ (0 : ℝ) < 1 ∧ (0 : ℝ) < 1 / 100) ∧
    ((∀ t : ℕ, StateTracksBest [(1 : ℝ), 3] (calculate_cv [(1 : ℝ), 3])
        (base_scale [(1 : ℝ), 3] 2) (npArange 1 (3 / 2) 1)
        (scanLoop [(1 : ℝ), 3] (calculate_cv [(1 : ℝ), 3]) (1 / 100)
          (base_scale [(1 : ℝ), 3] 2) ((npArange 1 (3 / 2) 1).take t)
          (initState (base_scale [(1 : ℝ), 3] 2)))) ∧
      ((∀ j, j < (npArange 1 (3 / 2) 1).length →
          1 / 100 < errAt [(1 : ℝ), 3] (calculate_cv [(1 : ℝ), 3])
            (base_scale [(1 : ℝ), 3] 2) (npArange 1 (3 / 2) 1) j) →
        (optimize_scaling [(1 : ℝ), 3] 2 (1 / 100) 1 (3 / 2) 1).broke = false ∧
        (optimize_scaling [(1 : ℝ), 3] 2 (1 / 100) 1 (3 / 2) 1).scalesTried
          = (npArange 1 (3 / 2) 1).length ∧
        StateTracksBest [(1 : ℝ), 3] (calculate_cv [(1 : ℝ), 3])
          (base_scale [(1 : ℝ), 3] 2) (npArange 1 (3 / 2) 1)
          (optimize_scaling [(1 : ℝ), 3] 2 (1 / 100) 1 (3 / 2) 1))) := by
  have hne : ([(1 : ℝ), 3]) ≠ [] := by simp
  have hmean : 0 < npMean [(1 : ℝ), 3] := by
    rw [mean_example]
    norm_num
  have hcv : 0 < calculate_cv [(1 : ℝ), 3] := by
    rw [cv_example]
    norm_num
  exact ⟨⟨hne, hmean, hcv, by norm_num, by norm_num, by norm_num⟩,
    optimize_scaling_tracks_minimum [(1 : ℝ), 3] 2 (1 / 100) 1 (3 / 2) 1 hne hmean hcv
      (by norm_num) (by norm_num) (by norm_num)⟩

/-- C3 witness: the amended no-range-error claim at a concrete inverted
range. -/
theorem invalid_range_no_range_error_witness :
    ((2 : ℝ) ≤ 3 ∧ (0 : ℝ) < 1) ∧
    (optimize_scaling_run [(2 : ℝ), 6] 4 (1 / 50) 3 2 1 true
        = Except.error PyError.typeError ∧
      optimize_scaling_run [(2 : ℝ), 6] 4 (1 / 50) 3 2 1 false
        = Except.ok (initState (base_scale [(2 : ℝ), 6] 4)) ∧
      (optimize_scaling [(2 : ℝ), 6] 4 (1 / 50) 3 2 1).scalesTried = 0 ∧
      (optimize_scaling [(2 : ℝ), 6] 4 (1 / 50) 3 2 1).bestData = none ∧
      (optimize_scaling [(2 : ℝ), 6] 4 (1 / 50) 3 2 1).bestScale = base_scale [(2 : ℝ), 6] 4) :=
  ⟨⟨by norm_num, by norm_num⟩,
   invalid_range_no_range_error [(2 : ℝ), 6] 4 (1 / 50) 3 2 1 (by norm_num) (by norm_num)⟩

/-- C9 witness: the scale/series consistency at the concrete run, whose
returned series is rounded from the original data times the returned
scale. -/
theorem best_scale_data_consistent_witness :
    (optimize_scaling [(1 : ℝ), 3] 2 (1 / 100) 1 (3 / 2) 1).bestData = some [1, 3] ∧
    ([1, 3] : List ℤ) = roundSeries ([(1 : ℝ), 3].map
      (fun x => x * (optimize_scaling [(1 : ℝ), 3] 2 (1 / 100) 1 (3 / 2) 1).bestScale)) :=
  ⟨by rw [opt_example],
   best_scale_data_consistent [(1 : ℝ), 3] 2 (1 / 100) 1 (3 / 2) 1 [1, 3] (by rw [opt_example])⟩

/-- C10 witness: the amended empty-progression behaviour at a concrete
degenerate range. -/
theorem empty_progression_behaviour_witness :
    ((5 : ℝ) ≤ 5 ∧ (0 : ℝ) < 1 / 2) ∧
    (npArange 5 5 (1 / 2) = [] ∧
      (optimize_scaling [(1 : ℝ), 2, 3] 6 (1 / 100) 5 5 (1 / 2)).scalesTried = 0 ∧
      (optimize_scaling [(1 : ℝ), 2, 3] 6 (1 / 100) 5 5 (1 / 2)).bestScale
        = 6 / npMean [(1 : ℝ), 2, 3] ∧
      (optimize_scaling [(1 : ℝ), 2, 3] 6 (1 / 100) 5 5 (1 / 2)).bestData = none ∧
      optimize_scaling_run [(1 : ℝ), 2, 3] 6 (1 / 100) 5 5 (1 / 2) false
        = Except.ok (initState (base_scale [(1 : ℝ), 2, 3] 6)) ∧
      optimize_scaling_run [(1 : ℝ), 2, 3] 6 (1 / 100) 5 5 (1 / 2) true
        = Except.error PyError.typeError) :=
  ⟨⟨le_refl 5, by norm_num⟩,
   empty_progression_behaviour [(1 : ℝ), 2, 3] 6 (1 / 100) 5 5 (1 / 2)
     (le_refl 5) (by norm_num)⟩
